import Mathlib

/-!
Shallow embedding of the Battle Dinghy escrow program
(src/packages/contracts/programs/battle-dinghy/src/lib.rs).

Modelling decisions:
* `Pubkey` is an abstract identity, modelled as `Nat`.
* Lamport amounts (`u64`) are modelled as `Nat`; in every reachable state the
  arithmetic stays far below `2^64`, and the one saturating operation in the
  source (`saturating_sub` in `declare_winner`) coincides with `Nat`
  subtraction.
* Timestamps (`i64`) are modelled as `Int`.
* The clock (`Clock::get()`) and the rent oracle (`Rent::get()`) are external
  inputs; they are passed as explicit arguments (`now`, `rent`).
* The escrow account's own lamport balance is part of the state
  (`EscrowState.lamports`); Anchor's `init` funds a fresh account with exactly
  the rent-exempt minimum, so `create_game` starts it at `rent`.
* The system-program transfer in `join_game` is an atomic external primitive:
  it either moves the full `buy_in` or fails moving nothing; the failure case
  (insufficient player balance) is surfaced as `ProgramError.TransferFailed`.
* Each operation is written in the source's exact order of checks and
  mutations and returns the state as mutated up to the point of failure
  together with the lamports credited to the external (non-escrow) account,
  so that the all-or-nothing property is a theorem, not a modelling artifact.
-/

abbrev Pubkey := Nat

def MAX_GAME_ID_LEN : Nat := 32

def MAX_PLAYERS : Nat := 10

def MINIMUM_GAME_TIME : Int := 60

inductive BattleDinghyError where
  | GameFull
  | GameNotOpen
  | IncorrectBuyIn
  | AlreadyJoined
  | NotEnoughPlayers
  | GameAlreadyStarted
  | GameNotActive
  | UnauthorizedOperator
  | DeadlineNotReached
  | DeadlinePassed
  | TooEarlyForWinner
  | WinnerNotPlayer
  | PlayerNotInGame
  | RefundNotAvailable
  | GamePaused
  | OperatorCannotPlay
  | GameIdTooLong
  | InvalidMaxPlayers
  | InvalidBuyIn
  | InvalidFillDeadline
  | AlreadyRefunded
  | GameNotCancelled
  | CannotCancel
  | GameNotPaused
  | GameNotFilled
deriving DecidableEq, Repr

/-- A program-level failure: either a named `BattleDinghyError` raised by a
`require!`, or a failure of the external system-program transfer primitive
(insufficient funds), propagated by `?` in `join_game`. -/
inductive ProgramError where
  | bd (e : BattleDinghyError)
  | TransferFailed
deriving DecidableEq, Repr

inductive GameStatus where
  | Open
  | Filled
  | Active
  | Complete
  | Cancelled
  | Paused
deriving DecidableEq, Repr

structure GameEscrow where
  game_id : String
  operator : Pubkey
  status : GameStatus
  buy_in : Nat
  max_players : Nat
  current_players : Nat
  players : List Pubkey
  seed : Nat
  winner : Option Pubkey
  proof_hash : Option Nat
  created_at : Int
  fill_deadline : Int
  started_at : Option Int
  refunded : List Bool
deriving DecidableEq, Repr

/-- The escrow record together with the lamport balance of the account
backing it. -/
structure EscrowState where
  escrow : GameEscrow
  lamports : Nat
deriving DecidableEq, Repr

/-- Result of one instruction: the state as mutated up to the point of
failure (equal to the input state when every mutation follows every check),
the lamports credited to the external non-escrow account (winner payout or
refund), and the error if the instruction failed. -/
structure OpResult where
  st : EscrowState
  credited : Nat
  err : Option ProgramError
deriving DecidableEq, Repr

/-- `create_game(game_id, buy_in, max_players, fill_deadline_hours, seed)`.
Anchor's `init` constraint funds the fresh escrow account with the
rent-exempt minimum, so the initial balance is `rent`. -/
def create_game (operator : Pubkey) (game_id : String) (buy_in : Nat)
    (max_players : Nat) (fill_deadline_hours : Nat) (seed : Nat)
    (now : Int) (rent : Nat) : Except ProgramError EscrowState :=
  if ¬ game_id.utf8ByteSize ≤ MAX_GAME_ID_LEN then
    .error (.bd .GameIdTooLong)
  else if ¬ (max_players > 0 ∧ max_players ≤ MAX_PLAYERS) then
    .error (.bd .InvalidMaxPlayers)
  else if ¬ buy_in > 0 then
    .error (.bd .InvalidBuyIn)
  else if ¬ fill_deadline_hours > 0 then
    .error (.bd .InvalidFillDeadline)
  else
    .ok { escrow :=
            { game_id := game_id
              operator := operator
              status := .Open
              buy_in := buy_in
              max_players := max_players
              current_players := 0
              players := []
              seed := seed
              winner := none
              proof_hash := none
              created_at := now
              fill_deadline := now + (fill_deadline_hours : Int) * 3600
              started_at := none
              refunded := [] }
          lamports := rent }

/-- `join_game`: five `require!`s, then the system-program transfer of
`buy_in` from the player into the escrow, then the record mutations.
`playerLamports` is the joining player's balance, consulted by the transfer
primitive. -/
def join_game (s : EscrowState) (player : Pubkey) (playerLamports : Nat)
    (now : Int) : OpResult :=
  if ¬ s.escrow.status = .Open then ⟨s, 0, some (.bd .GameNotOpen)⟩
  else if ¬ s.escrow.current_players < s.escrow.max_players then
    ⟨s, 0, some (.bd .GameFull)⟩
  else if ¬ now < s.escrow.fill_deadline then ⟨s, 0, some (.bd .DeadlinePassed)⟩
  else if ¬ player ≠ s.escrow.operator then
    ⟨s, 0, some (.bd .OperatorCannotPlay)⟩
  else if ¬ ¬ s.escrow.players.contains player then
    ⟨s, 0, some (.bd .AlreadyJoined)⟩
  else if playerLamports < s.escrow.buy_in then ⟨s, 0, some .TransferFailed⟩
  else
    let e := s.escrow
    let players' := e.players ++ [player]
    let refunded' := e.refunded ++ [false]
    let cp' := e.current_players + 1
    let status' := if cp' = e.max_players then GameStatus.Filled else e.status
    ⟨{ escrow := { e with
                    players := players'
                    refunded := refunded'
                    current_players := cp'
                    status := status' }
       lamports := s.lamports + e.buy_in }
     , 0, none⟩

/-- `start_game`: requires Filled and the operator; sets status Active and
`started_at = now`. -/
def start_game (s : EscrowState) (caller : Pubkey) (now : Int) : OpResult :=
  if ¬ s.escrow.status = .Filled then ⟨s, 0, some (.bd .GameNotFilled)⟩
  else if ¬ caller = s.escrow.operator then
    ⟨s, 0, some (.bd .UnauthorizedOperator)⟩
  else
    ⟨{ s with escrow := { s.escrow with
                            status := .Active
                            started_at := some now } }
     , 0, none⟩

/-- `declare_winner`: requires Active, the operator, and a winner drawn from
`players`; if `started_at` is set, the clock must have advanced by at least
`MINIMUM_GAME_TIME`. Pays the whole balance above the rent-exempt reserve to
the winner (`saturating_sub`, hence `Nat` subtraction), sets `winner`,
`proof_hash` and status Complete. -/
def declare_winner (rent : Nat) (s : EscrowState) (caller : Pubkey)
    (winner : Pubkey) (proofHash : Nat) (now : Int) : OpResult :=
  if ¬ s.escrow.status = .Active then ⟨s, 0, some (.bd .GameNotActive)⟩
  else if ¬ caller = s.escrow.operator then
    ⟨s, 0, some (.bd .UnauthorizedOperator)⟩
  else if ¬ s.escrow.players.contains winner then
    ⟨s, 0, some (.bd .WinnerNotPlayer)⟩
  else if (match s.escrow.started_at with
           | some t => decide (¬ now ≥ t + MINIMUM_GAME_TIME)
           | none => false) then
    ⟨s, 0, some (.bd .TooEarlyForWinner)⟩
  else
    let transfer_amount := s.lamports - rent
    ⟨{ escrow := { s.escrow with
                    winner := some winner
                    proof_hash := some proofHash
                    status := .Complete }
       lamports := s.lamports - transfer_amount }
     , transfer_amount, none⟩

/-- `cancel_game`: requires the operator; cancellable from Open and Paused
unconditionally, from Filled only after the fill deadline. Only the status
changes; no funds move. -/
def cancel_game (s : EscrowState) (caller : Pubkey) (now : Int) : OpResult :=
  if ¬ caller = s.escrow.operator then
    ⟨s, 0, some (.bd .UnauthorizedOperator)⟩
  else if (match s.escrow.status with
           | .Open => true
           | .Filled => decide (now > s.escrow.fill_deadline)
           | .Paused => true
           | _ => false) then
    ⟨{ s with escrow := { s.escrow with status := .Cancelled } }, 0, none⟩
  else ⟨s, 0, some (.bd .CannotCancel)⟩

/-- `claim_refund`: requires Cancelled; finds the caller's index in
`players` (`Iterator::position`), requires their `refunded` flag unset, then
moves `buy_in` back to the caller and sets the flag. The source indexes
`refunded[player_index]` directly; the embedding uses `getD`/`set`, whose
defaults never fire in reachable states (see the bounds theorem). -/
def claim_refund (s : EscrowState) (player : Pubkey) : OpResult :=
  if ¬ s.escrow.status = .Cancelled then ⟨s, 0, some (.bd .GameNotCancelled)⟩
  else
    match s.escrow.players.findIdx? (fun p => p = player) with
    | none => ⟨s, 0, some (.bd .PlayerNotInGame)⟩
    | some player_index =>
      if ¬ ¬ s.escrow.refunded.getD player_index false then
        ⟨s, 0, some (.bd .AlreadyRefunded)⟩
      else
        ⟨{ escrow := { s.escrow with
                        refunded := s.escrow.refunded.set player_index true }
           lamports := s.lamports - s.escrow.buy_in }
         , s.escrow.buy_in, none⟩

/-- `emergency_halt`: requires Active and the operator; sets status Paused. -/
def emergency_halt (s : EscrowState) (caller : Pubkey) : OpResult :=
  if ¬ s.escrow.status = .Active then ⟨s, 0, some (.bd .GameNotActive)⟩
  else if ¬ caller = s.escrow.operator then
    ⟨s, 0, some (.bd .UnauthorizedOperator)⟩
  else
    ⟨{ s with escrow := { s.escrow with status := .Paused } }, 0, none⟩

/-- `resume_game`: requires Paused and the operator; sets status Active. -/
def resume_game (s : EscrowState) (caller : Pubkey) : OpResult :=
  if ¬ s.escrow.status = .Paused then ⟨s, 0, some (.bd .GameNotPaused)⟩
  else if ¬ caller = s.escrow.operator then
    ⟨s, 0, some (.bd .UnauthorizedOperator)⟩
  else
    ⟨{ s with escrow := { s.escrow with status := .Active } }, 0, none⟩

/-- One invocation of an instruction on an existing record, with the
external inputs (caller, clock reading, player balance) it is invoked with. -/
inductive Op where
  | join (player : Pubkey) (playerLamports : Nat) (now : Int)
  | start (caller : Pubkey) (now : Int)
  | declareWinner (caller : Pubkey) (winner : Pubkey) (proofHash : Nat) (now : Int)
  | cancel (caller : Pubkey) (now : Int)
  | claimRefund (caller : Pubkey)
  | halt (caller : Pubkey)
  | resume (caller : Pubkey)
deriving DecidableEq, Repr

def applyOp (rent : Nat) (s : EscrowState) : Op → OpResult
  | .join p lam now => join_game s p lam now
  | .start c now => start_game s c now
  | .declareWinner c w ph now => declare_winner rent s c w ph now
  | .cancel c now => cancel_game s c now
  | .claimRefund c => claim_refund s c
  | .halt c => emergency_halt s c
  | .resume c => resume_game s c

/-- Runtime semantics of one transaction: on success the mutated state is
persisted; on error the runtime rolls the whole transaction back. -/
def step (rent : Nat) (s : EscrowState) (op : Op) : EscrowState :=
  match applyOp rent s op with
  | ⟨s', _, none⟩ => s'
  | ⟨_, _, some _⟩ => s

def run (rent : Nat) (s : EscrowState) (ops : List Op) : EscrowState :=
  ops.foldl (step rent) s

/-- Lamports deposited into the escrow by one operation (the `join_game`
transfer), zero when the operation fails. -/
def depositOf (rent : Nat) (s : EscrowState) (op : Op) : Nat :=
  match op, (applyOp rent s op).err with
  | .join _ _ _, none => s.escrow.buy_in
  | _, _ => 0

/-- Lamports paid out of the escrow to the winner by one operation, zero
unless a `declare_winner` succeeds. -/
def payoutOf (rent : Nat) (s : EscrowState) (op : Op) : Nat :=
  match op, (applyOp rent s op).err with
  | .declareWinner _ _ _ _, none => (applyOp rent s op).credited
  | _, _ => 0

/-- Lamports refunded out of the escrow by one operation, zero unless a
`claim_refund` succeeds. -/
def refundOf (rent : Nat) (s : EscrowState) (op : Op) : Nat :=
  match op, (applyOp rent s op).err with
  | .claimRefund _, none => (applyOp rent s op).credited
  | _, _ => 0

def totalDeposited (rent : Nat) (s : EscrowState) : List Op → Nat
  | [] => 0
  | op :: ops => depositOf rent s op + totalDeposited rent (step rent s op) ops

def totalPaidOut (rent : Nat) (s : EscrowState) : List Op → Nat
  | [] => 0
  | op :: ops => payoutOf rent s op + totalPaidOut rent (step rent s op) ops

def totalRefunded (rent : Nat) (s : EscrowState) : List Op → Nat
  | [] => 0
  | op :: ops => refundOf rent s op + totalRefunded rent (step rent s op) ops

/-!
## Reachable-state invariant
-/

/-- Accounting invariant tying the escrow account's balance to the record:
before settlement the balance is the reserve plus one buy-in per joined
player; once Complete only the reserve remains; once Cancelled the balance
is the reserve plus one buy-in per not-yet-refunded participant. -/
def MoneyInv (rent : Nat) (s : EscrowState) : Prop :=
  match s.escrow.status with
  | .Complete => s.lamports = rent
  | .Cancelled =>
      s.lamports = rent + s.escrow.buy_in * s.escrow.refunded.count false
  | _ => s.lamports = rent + s.escrow.buy_in * s.escrow.players.length

/-- The structural and accounting invariants maintained by every
instruction, relative to the fixed rent-exempt reserve `rent`. -/
structure EscrowInv (rent : Nat) (s : EscrowState) : Prop where
  count_players : s.escrow.current_players = s.escrow.players.length
  count_refunded : s.escrow.players.length = s.escrow.refunded.length
  nodup : s.escrow.players.Nodup
  operator_not_player : s.escrow.operator ∉ s.escrow.players
  winner_mem : ∀ w, s.escrow.winner = some w → w ∈ s.escrow.players
  active_started : s.escrow.status = .Active → s.escrow.started_at ≠ none
  paused_started : s.escrow.status = .Paused → s.escrow.started_at ≠ none
  unrefunded : s.escrow.status ≠ .Cancelled → ∀ b ∈ s.escrow.refunded, b = false
  open_capacity : s.escrow.status = .Open →
    s.escrow.current_players < s.escrow.max_players
  money : MoneyInv rent s

/-- States reachable from a successful `create_game` by any sequence of
instruction invocations (failed invocations roll back and are no-ops). -/
def Reachable (rent : Nat) (s : EscrowState) : Prop :=
  ∃ op_key game_id buy_in max_players hours seed now s0 ops,
    create_game op_key game_id buy_in max_players hours seed now rent = .ok s0 ∧
    s = run rent s0 ops

/-- Whether participant `p`'s refund has been recorded in `s` (the flag at
`p`'s index in `refunded`, as `claim_refund` reads it). -/
def refundedFlag (s : EscrowState) (p : Pubkey) : Bool :=
  match s.escrow.players.findIdx? (fun q => q = p) with
  | some i => s.escrow.refunded.getD i false
  | none => false

/-- A concrete freshly created game: operator 0, buy-in 100 lamports, two
player slots, one-hour fill deadline, created at time 0, reserve 50. -/
def exSt0 : EscrowState :=
  ⟨{ game_id := "g", operator := 0, status := .Open, buy_in := 100,
     max_players := 2, current_players := 0, players := [], seed := 7,
     winner := none, proof_hash := none, created_at := 0,
     fill_deadline := 3600, started_at := none, refunded := [] }, 50⟩

/-- `exSt0` after both players join: status Filled. -/
def exStFilled : EscrowState := run 50 exSt0 [.join 1 1000 0, .join 2 1000 0]

/-- `exStFilled` started by the operator at time 10: status Active. -/
def exStActive : EscrowState :=
  run 50 exSt0 [.join 1 1000 0, .join 2 1000 0, .start 0 10]

/-- `exSt0` after one join and an operator cancellation: status Cancelled. -/
def exStCancelled : EscrowState := run 50 exSt0 [.join 1 1000 0, .cancel 0 5]

/-- A terminal happy-path trace on `exSt0`: both joins, start, and a winner
declared after the minimum game time. -/
def exOpsComplete : List Op :=
  [.join 1 1000 0, .join 2 1000 0, .start 0 10, .declareWinner 0 1 5 100]

/-- A terminal cancellation trace on `exSt0`: one join, operator cancel,
and the lone participant's refund. -/
def exOpsRefunded : List Op := [.join 1 1000 0, .cancel 0 5, .claimRefund 1]

theorem inv_create {op_key : Pubkey} {game_id : String}
    {buy_in max_players hours seed : Nat} {now : Int} {rent : Nat}
    {s0 : EscrowState}
    (h : create_game op_key game_id buy_in max_players hours seed now rent
          = .ok s0) :
    EscrowInv rent s0 := by
  unfold create_game at h
  split_ifs at h with h1 h2 h3 h4
  simp only [Except.ok.injEq] at h
  subst h
  push_neg at h2
  refine ⟨rfl, rfl, ?_, ?_, ?_, ?_, ?_, ?_, ?_, ?_⟩ <;>
    simp [MoneyInv, h2.1]

theorem inv_join {rent : Nat} {s : EscrowState} {p : Pubkey}
    {lam : Nat} {now : Int} (hinv : EscrowInv rent s)
    (hok : (join_game s p lam now).err = none) :
    EscrowInv rent (join_game s p lam now).st := by
  unfold join_game at *
  split_ifs at hok ⊢ with h1 h2 h3 h4 h5 h6 <;>
    try simp at hok
  push_neg at h1 h3 h4
  have hmem : p ∉ s.escrow.players := by
    simpa using h5
  obtain ⟨c1, c2, nd, onp, wm, as_, ps_, ur, oc, mny⟩ := hinv
  refine ⟨?_, ?_, ?_, ?_, ?_, ?_, ?_, ?_, ?_, ?_⟩ <;> simp only
  · simpa using c1
  · simpa using c2
  · simp [List.nodup_append, nd, hmem]
  · simp only [List.mem_append, List.mem_singleton]
    rintro (h | h)
    · exact onp h
    · exact h4 h.symm
  · intro w hw
    exact List.mem_append_left _ (wm w hw)
  · intro hst
    split at hst <;> simp_all
  · intro hst
    split at hst <;> simp_all
  · intro _ b hb
    rcases List.mem_append.mp hb with h | h
    · exact ur (by simp [h1]) b h
    · simpa using h
  · intro hst
    by_cases hc : s.escrow.current_players + 1 = s.escrow.max_players
    · simp [hc] at hst
    · push_neg at h2
      omega
  · unfold MoneyInv at mny ⊢
    simp only [h1] at mny
    by_cases hc : s.escrow.current_players + 1 = s.escrow.max_players <;>
      simp [hc, h1, Nat.mul_succ] <;> omega

theorem inv_start {rent : Nat} {s : EscrowState} {c : Pubkey} {now : Int}
    (hinv : EscrowInv rent s) (hok : (start_game s c now).err = none) :
    EscrowInv rent (start_game s c now).st := by
  unfold start_game at *
  split_ifs at hok ⊢ with h1 h2 <;> try simp at hok
  push_neg at h1
  obtain ⟨c1, c2, nd, onp, wm, as_, ps_, ur, oc, mny⟩ := hinv
  refine ⟨c1, c2, nd, onp, wm, by simp, by simp, ?_, by simp, ?_⟩
  · intro _ b hb
    exact ur (by simp [h1]) b hb
  · unfold MoneyInv at mny ⊢
    simp only [h1] at mny
    simpa using mny

theorem inv_declare {rent : Nat} {s : EscrowState} {c w : Pubkey}
    {ph : Nat} {now : Int} (hinv : EscrowInv rent s)
    (hok : (declare_winner rent s c w ph now).err = none) :
    EscrowInv rent (declare_winner rent s c w ph now).st := by
  unfold declare_winner at *
  split_ifs at hok ⊢ with h1 h2 h3 h4 <;> try simp at hok
  push_neg at h1
  have hwmem : w ∈ s.escrow.players := by simpa using h3
  obtain ⟨c1, c2, nd, onp, wm, as_, ps_, ur, oc, mny⟩ := hinv
  refine ⟨c1, c2, nd, onp, ?_, by simp, by simp, ?_, by simp, ?_⟩
  · intro w' hw'
    simp only [Option.some.injEq] at hw'
    subst hw'
    exact hwmem
  · intro _ b hb
    exact ur (by simp [h1]) b hb
  · unfold MoneyInv at mny ⊢
    simp only [h1] at mny
    simp only
    omega

theorem inv_cancel {rent : Nat} {s : EscrowState} {c : Pubkey} {now : Int}
    (hinv : EscrowInv rent s) (hok : (cancel_game s c now).err = none) :
    EscrowInv rent (cancel_game s c now).st := by
  unfold cancel_game at *
  split_ifs at hok ⊢ with h1 h2 <;> try simp at hok
  obtain ⟨c1, c2, nd, onp, wm, as_, ps_, ur, oc, mny⟩ := hinv
  have hnotc : s.escrow.status ≠ .Cancelled := by
    intro hst
    rw [hst] at h2
    simp at h2
  have hallf : ∀ b ∈ s.escrow.refunded, b = false := ur hnotc
  have hcnt : s.escrow.refunded.count false = s.escrow.refunded.length :=
    List.count_eq_length.mpr fun b hb => (hallf b hb).symm
  refine ⟨c1, c2, nd, onp, wm, by simp, by simp, by simp, by simp, ?_⟩
  unfold MoneyInv at mny ⊢
  simp only
  rw [hcnt, ← c2]
  revert mny h2
  cases hs : s.escrow.status <;> simp_all

theorem count_false_set_true {l : List Bool} {i : Nat} (hi : i < l.length)
    (hf : l[i] = false) :
    (l.set i true).count false + 1 = l.count false := by
  have h := List.count_set true false l i hi
  rw [h, hf]
  have hpos : 0 < l.count false :=
    List.count_pos_iff.mpr (by
      rw [← hf]
      exact List.getElem_mem hi)
  simp
  omega

theorem claim_refund_not_cancelled {s : EscrowState} {p : Pubkey}
    (h : ¬ s.escrow.status = .Cancelled) :
    claim_refund s p = ⟨s, 0, some (.bd .GameNotCancelled)⟩ := by
  unfold claim_refund
  rw [if_pos h]

theorem claim_refund_no_player {s : EscrowState} {p : Pubkey}
    (h1 : s.escrow.status = .Cancelled)
    (hidx : s.escrow.players.findIdx? (fun q => q = p) = none) :
    claim_refund s p = ⟨s, 0, some (.bd .PlayerNotInGame)⟩ := by
  unfold claim_refund
  rw [if_neg (by simp [h1]), hidx]

theorem claim_refund_already {s : EscrowState} {p : Pubkey} {i : Nat}
    (h1 : s.escrow.status = .Cancelled)
    (hidx : s.escrow.players.findIdx? (fun q => q = p) = some i)
    (hflag : s.escrow.refunded.getD i false = true) :
    claim_refund s p = ⟨s, 0, some (.bd .AlreadyRefunded)⟩ := by
  unfold claim_refund
  rw [if_neg (by simp [h1]), hidx]
  have hflag' := hflag
  rw [List.getD_eq_getElem?_getD] at hflag'
  simp [hflag']

theorem claim_refund_success {s : EscrowState} {p : Pubkey} {i : Nat}
    (h1 : s.escrow.status = .Cancelled)
    (hidx : s.escrow.players.findIdx? (fun q => q = p) = some i)
    (hflag : s.escrow.refunded.getD i false = false) :
    claim_refund s p =
      ⟨⟨{ s.escrow with refunded := s.escrow.refunded.set i true },
        s.lamports - s.escrow.buy_in⟩, s.escrow.buy_in, none⟩ := by
  unfold claim_refund
  rw [if_neg (by simp [h1]), hidx]
  have hflag' := hflag
  rw [List.getD_eq_getElem?_getD] at hflag'
  simp [hflag']

theorem inv_refund {rent : Nat} {s : EscrowState} {p : Pubkey}
    (hinv : EscrowInv rent s) (hok : (claim_refund s p).err = none) :
    EscrowInv rent (claim_refund s p).st := by
  obtain ⟨c1, c2, nd, onp, wm, as_, ps_, ur, oc, mny⟩ := hinv
  by_cases h1 : s.escrow.status = .Cancelled
  swap
  · rw [claim_refund_not_cancelled h1] at hok
    simp at hok
  rcases hidx : s.escrow.players.findIdx? (fun q => q = p) with _ | i
  · rw [claim_refund_no_player h1 hidx] at hok
    simp at hok
  rcases hflag : s.escrow.refunded.getD i false with _ | _
  swap
  · rw [claim_refund_already h1 hidx hflag] at hok
    simp at hok
  rw [claim_refund_success h1 hidx hflag] at hok ⊢
  have hbound := List.findIdx?_eq_some_iff_findIdx_eq.mp hidx
  have hilt : i < s.escrow.refunded.length := by omega
  have hgf : s.escrow.refunded[i] = false := by
    rwa [List.getD_eq_getElem s.escrow.refunded false hilt] at hflag
  refine ⟨c1, by simpa using c2, nd, onp, wm, by simp [h1], by simp [h1],
          by simp [h1], by simp [h1], ?_⟩
  unfold MoneyInv at mny ⊢
  simp only [h1] at mny ⊢
  have hcs := count_false_set_true hilt hgf
  rw [← hcs, Nat.mul_succ] at mny
  omega

theorem inv_halt {rent : Nat} {s : EscrowState} {c : Pubkey}
    (hinv : EscrowInv rent s) (hok : (emergency_halt s c).err = none) :
    EscrowInv rent (emergency_halt s c).st := by
  unfold emergency_halt at *
  split_ifs at hok ⊢ with h1 h2 <;> try simp at hok
  push_neg at h1
  obtain ⟨c1, c2, nd, onp, wm, as_, ps_, ur, oc, mny⟩ := hinv
  refine ⟨c1, c2, nd, onp, wm, by simp, ?_, ?_, by simp, ?_⟩
  · intro _
    exact as_ h1
  · intro _ b hb
    exact ur (by simp [h1]) b hb
  · unfold MoneyInv at mny ⊢
    simp only [h1] at mny
    simpa using mny

theorem inv_resume {rent : Nat} {s : EscrowState} {c : Pubkey}
    (hinv : EscrowInv rent s) (hok : (resume_game s c).err = none) :
    EscrowInv rent (resume_game s c).st := by
  unfold resume_game at *
  split_ifs at hok ⊢ with h1 h2 <;> try simp at hok
  push_neg at h1
  obtain ⟨c1, c2, nd, onp, wm, as_, ps_, ur, oc, mny⟩ := hinv
  refine ⟨c1, c2, nd, onp, wm, ?_, by simp, ?_, by simp, ?_⟩
  · intro _
    exact ps_ h1
  · intro _ b hb
    exact ur (by simp [h1]) b hb
  · unfold MoneyInv at mny ⊢
    simp only [h1] at mny
    simpa using mny

theorem inv_applyOp {rent : Nat} {s : EscrowState} {op : Op}
    (hinv : EscrowInv rent s) (hok : (applyOp rent s op).err = none) :
    EscrowInv rent (applyOp rent s op).st := by
  cases op with
  | join p lam now => exact inv_join hinv hok
  | start c now => exact inv_start hinv hok
  | declareWinner c w ph now => exact inv_declare hinv hok
  | cancel c now => exact inv_cancel hinv hok
  | claimRefund c => exact inv_refund hinv hok
  | halt c => exact inv_halt hinv hok
  | resume c => exact inv_resume hinv hok

theorem inv_step {rent : Nat} {s : EscrowState} {op : Op}
    (hinv : EscrowInv rent s) : EscrowInv rent (step rent s op) := by
  unfold step
  rcases hres : applyOp rent s op with ⟨s', cr, e⟩
  cases e with
  | none =>
      have := @inv_applyOp rent s op hinv (by rw [hres])
      rw [hres] at this
      exact this
  | some e0 => exact hinv

theorem inv_run {rent : Nat} {s : EscrowState} {ops : List Op}
    (hinv : EscrowInv rent s) : EscrowInv rent (run rent s ops) := by
  induction ops generalizing s with
  | nil => exact hinv
  | cons op ops ih =>
      have h1 : run rent s (op :: ops) = run rent (step rent s op) ops := rfl
      rw [h1]
      exact ih (inv_step hinv)

theorem inv_reachable {rent : Nat} {s : EscrowState}
    (h : Reachable rent s) : EscrowInv rent s := by
  obtain ⟨ok, gid, bi, mp, hrs, sd, now, s0, ops, hc, hrun⟩ := h
  subst hrun
  exact inv_run (inv_create hc)

theorem step_of_err {rent : Nat} {s : EscrowState} {op : Op}
    (h : (applyOp rent s op).err ≠ none) : step rent s op = s := by
  unfold step
  rcases hres : applyOp rent s op with ⟨s', cr, e⟩
  cases e with
  | none =>
      rw [hres] at h
      simp at h
  | some e0 => rfl

theorem step_of_ok {rent : Nat} {s : EscrowState} {op : Op}
    (h : (applyOp rent s op).err = none) :
    step rent s op = (applyOp rent s op).st := by
  unfold step
  rcases hres : applyOp rent s op with ⟨s', cr, e⟩
  cases e with
  | none => rfl
  | some e0 =>
      rw [hres] at h
      simp at h

theorem applyOp_complete_err {rent : Nat} {s : EscrowState} (op : Op)
    (h : s.escrow.status = .Complete) : (applyOp rent s op).err ≠ none := by
  cases op with
  | join p lam now =>
      simp only [applyOp]
      unfold join_game
      rw [if_pos (by simp [h])]
      simp
  | start c now =>
      simp only [applyOp]
      unfold start_game
      rw [if_pos (by simp [h])]
      simp
  | declareWinner c w ph now =>
      simp only [applyOp]
      unfold declare_winner
      rw [if_pos (by simp [h])]
      simp
  | cancel c now =>
      simp only [applyOp]
      unfold cancel_game
      by_cases hc : c = s.escrow.operator
      · rw [if_neg (by simpa using hc), if_neg (by rw [h]; simp)]
        simp
      · rw [if_pos (by simpa using hc)]
        simp
  | claimRefund p =>
      simp only [applyOp]
      rw [claim_refund_not_cancelled (by simp [h])]
      simp
  | halt c =>
      simp only [applyOp]
      unfold emergency_halt
      rw [if_pos (by simp [h])]
      simp
  | resume c =>
      simp only [applyOp]
      unfold resume_game
      rw [if_pos (by simp [h])]
      simp

theorem run_complete {rent : Nat} {s : EscrowState} (ops : List Op)
    (h : s.escrow.status = .Complete) : run rent s ops = s := by
  induction ops with
  | nil => rfl
  | cons op ops ih =>
      have hstep : step rent s op = s := step_of_err (applyOp_complete_err op h)
      have h1 : run rent s (op :: ops) = run rent (step rent s op) ops := rfl
      rw [h1, hstep, ih]

theorem step_accounting {rent : Nat} {s : EscrowState} (op : Op)
    (hinv : EscrowInv rent s) :
    (step rent s op).lamports + payoutOf rent s op + refundOf rent s op =
      s.lamports + depositOf rent s op := by
  rcases herr : (applyOp rent s op).err with _ | e
  · rw [step_of_ok herr]
    unfold depositOf payoutOf refundOf
    rw [herr]
    cases op with
    | join p lam now =>
        simp only [applyOp] at herr ⊢
        unfold join_game at herr ⊢
        split_ifs at herr ⊢ <;> try simp at herr
        simp
    | start c now =>
        simp only [applyOp] at herr ⊢
        unfold start_game at herr ⊢
        split_ifs at herr ⊢ <;> try simp at herr
        simp
    | declareWinner c w ph now =>
        simp only [applyOp] at herr ⊢
        unfold declare_winner at herr ⊢
        split_ifs at herr ⊢ <;> try simp at herr
        simp only
        omega
    | cancel c now =>
        simp only [applyOp] at herr ⊢
        unfold cancel_game at herr ⊢
        split_ifs at herr ⊢ <;> try simp at herr
        simp
    | claimRefund p =>
        simp only [applyOp] at herr ⊢
        obtain ⟨c1, c2, nd, onp, wm, as_, ps_, ur, oc, mny⟩ := hinv
        by_cases h1 : s.escrow.status = .Cancelled
        swap
        · rw [claim_refund_not_cancelled h1] at herr
          simp at herr
        rcases hidx : s.escrow.players.findIdx? (fun q => q = p) with _ | i
        · rw [claim_refund_no_player h1 hidx] at herr
          simp at herr
        rcases hflag : s.escrow.refunded.getD i false with _ | _
        swap
        · rw [claim_refund_already h1 hidx hflag] at herr
          simp at herr
        rw [claim_refund_success h1 hidx hflag]
        have hbound := List.findIdx?_eq_some_iff_findIdx_eq.mp hidx
        have hilt : i < s.escrow.refunded.length := by omega
        have hgf : s.escrow.refunded[i] = false := by
          rwa [List.getD_eq_getElem s.escrow.refunded false hilt] at hflag
        have hcnt : 0 < s.escrow.refunded.count false :=
          List.count_pos_iff.mpr (by
            rw [← hgf]
            exact List.getElem_mem hilt)
        unfold MoneyInv at mny
        simp only [h1] at mny
        obtain ⟨k, hk⟩ : ∃ k, s.escrow.refunded.count false = k + 1 :=
          ⟨s.escrow.refunded.count false - 1, by omega⟩
        rw [hk, Nat.mul_succ] at mny
        simp only
        omega
    | halt c =>
        simp only [applyOp] at herr ⊢
        unfold emergency_halt at herr ⊢
        split_ifs at herr ⊢ <;> try simp at herr
        simp
    | resume c =>
        simp only [applyOp] at herr ⊢
        unfold resume_game at herr ⊢
        split_ifs at herr ⊢ <;> try simp at herr
        simp
  · rw [step_of_err (by rw [herr]; simp)]
    unfold depositOf payoutOf refundOf
    rw [herr]
    cases op <;> simp

theorem run_accounting {rent : Nat} {s : EscrowState} (ops : List Op)
    (hinv : EscrowInv rent s) :
    (run rent s ops).lamports + totalPaidOut rent s ops +
      totalRefunded rent s ops =
      s.lamports + totalDeposited rent s ops := by
  induction ops generalizing s with
  | nil => simp [run, totalPaidOut, totalRefunded, totalDeposited]
  | cons op ops ih =>
      have hrun : run rent s (op :: ops) = run rent (step rent s op) ops := rfl
      rw [hrun]
      simp only [totalPaidOut, totalRefunded, totalDeposited]
      have h1 := ih (@inv_step rent s op hinv)
      have h2 := step_accounting op hinv
      omega

theorem lamports_terminal {rent : Nat} {s : EscrowState}
    (hinv : EscrowInv rent s)
    (hterm : s.escrow.status = .Complete ∨
      (s.escrow.status = .Cancelled ∧ ∀ b ∈ s.escrow.refunded, b = true)) :
    s.lamports = rent := by
  have mny := hinv.money
  unfold MoneyInv at mny
  rcases hterm with h | ⟨h, hall⟩
  · simp only [h] at mny
    exact mny
  · simp only [h] at mny
    have hz : s.escrow.refunded.count false = 0 := by
      rw [List.count_eq_zero]
      intro hmem
      have := hall _ hmem
      simp at this
    rw [hz] at mny
    simpa using mny

theorem create_game_ok_lamports {op_key : Pubkey} {game_id : String}
    {buy_in max_players hours seed : Nat} {now : Int} {rent : Nat}
    {s0 : EscrowState}
    (h : create_game op_key game_id buy_in max_players hours seed now rent
          = .ok s0) :
    s0.lamports = rent := by
  unfold create_game at h
  split_ifs at h
  simp only [Except.ok.injEq] at h
  subst h
  rfl

/-- Claim C1: for every terminal history of an escrow record (create
followed by operations ending with status Complete, or Cancelled with every
participant refunded), the total deposited by successful joins equals the
total paid to the winner plus the total refunded; equivalently the custodied
balance above the platform reserve is zero in such terminal states. -/
theorem conservation_of_funds (rent : Nat) (op_key : Pubkey)
    (game_id : String) (buy_in max_players hours seed : Nat) (now : Int)
    (s0 : EscrowState) (ops : List Op)
    (hc : create_game op_key game_id buy_in max_players hours seed now rent
          = .ok s0)
    (hterm : (run rent s0 ops).escrow.status = .Complete ∨
      ((run rent s0 ops).escrow.status = .Cancelled ∧
        ∀ b ∈ (run rent s0 ops).escrow.refunded, b = true)) :
    totalDeposited rent s0 ops =
      totalPaidOut rent s0 ops + totalRefunded rent s0 ops ∧
    (run rent s0 ops).lamports = rent := by
  have hinv0 := inv_create hc
  have hacc := run_accounting ops hinv0
  have hinvN : EscrowInv rent (run rent s0 ops) := inv_run hinv0
  have hfin := lamports_terminal hinvN hterm
  have h0 := create_game_ok_lamports hc
  exact ⟨by omega, hfin⟩

/-- Witness for C1 on a concrete completed game and a concrete fully
refunded cancelled game. -/
theorem conservation_of_funds_witness :
    (create_game 0 "g" 100 2 1 7 0 50 = .ok exSt0 ∧
      (run 50 exSt0 exOpsComplete).escrow.status = .Complete ∧
      totalDeposited 50 exSt0 exOpsComplete =
        totalPaidOut 50 exSt0 exOpsComplete +
          totalRefunded 50 exSt0 exOpsComplete ∧
      (run 50 exSt0 exOpsComplete).lamports = 50) ∧
    (run 50 exSt0 exOpsRefunded).escrow.status = .Cancelled ∧
    totalDeposited 50 exSt0 exOpsRefunded =
      totalPaidOut 50 exSt0 exOpsRefunded +
        totalRefunded 50 exSt0 exOpsRefunded :=
  ⟨⟨rfl, rfl,
    conservation_of_funds 50 0 "g" 100 2 1 7 0 exSt0 exOpsComplete rfl
      (Or.inl rfl)⟩,
   rfl,
   (conservation_of_funds 50 0 "g" 100 2 1 7 0 exSt0 exOpsRefunded rfl
      (Or.inr ⟨rfl, by decide⟩)).1⟩

/-- Claim C2: every instruction is all-or-nothing — whenever it returns an
error, the escrow record, the escrow balance, and the lamports credited to
any external account are exactly as before the call. -/
theorem error_all_or_nothing (rent : Nat) (s : EscrowState) (op : Op)
    (e : ProgramError) (h : (applyOp rent s op).err = some e) :
    (applyOp rent s op).st = s ∧ (applyOp rent s op).credited = 0 := by
  cases op with
  | join p lam now =>
      simp only [applyOp] at *
      unfold join_game at *
      split_ifs at h ⊢ <;> first
        | exact ⟨rfl, rfl⟩
        | simp_all
  | start c now =>
      simp only [applyOp] at *
      unfold start_game at *
      split_ifs at h ⊢ <;> first
        | exact ⟨rfl, rfl⟩
        | simp_all
  | declareWinner c w ph now =>
      simp only [applyOp] at *
      unfold declare_winner at *
      split_ifs at h ⊢ <;> first
        | exact ⟨rfl, rfl⟩
        | simp_all
  | cancel c now =>
      simp only [applyOp] at *
      unfold cancel_game at *
      split_ifs at h ⊢ <;> first
        | exact ⟨rfl, rfl⟩
        | simp_all
  | claimRefund p =>
      simp only [applyOp] at *
      by_cases h1 : s.escrow.status = .Cancelled
      swap
      · rw [claim_refund_not_cancelled h1]
        exact ⟨rfl, rfl⟩
      rcases hidx : s.escrow.players.findIdx? (fun q => q = p) with _ | i
      · rw [claim_refund_no_player h1 hidx]
        exact ⟨rfl, rfl⟩
      rcases hflag : s.escrow.refunded.getD i false with _ | _
      · rw [claim_refund_success h1 hidx hflag] at h
        simp at h
      · rw [claim_refund_already h1 hidx hflag]
        exact ⟨rfl, rfl⟩
  | halt c =>
      simp only [applyOp] at *
      unfold emergency_halt at *
      split_ifs at h ⊢ <;> first
        | exact ⟨rfl, rfl⟩
        | simp_all
  | resume c =>
      simp only [applyOp] at *
      unfold resume_game at *
      split_ifs at h ⊢ <;> first
        | exact ⟨rfl, rfl⟩
        | simp_all

/-- Witness for C2: the operator trying to join their own game is rejected
and the record, balance and credits are untouched. -/
theorem error_all_or_nothing_witness :
    (applyOp 50 exSt0 (Op.join 0 1000 0)).err
        = some (.bd .OperatorCannotPlay) ∧
    (applyOp 50 exSt0 (Op.join 0 1000 0)).st = exSt0 ∧
    (applyOp 50 exSt0 (Op.join 0 1000 0)).credited = 0 :=
  ⟨by decide,
   error_all_or_nothing 50 exSt0 (Op.join 0 1000 0)
     (.bd .OperatorCannotPlay) (by decide)⟩

/-- Claim C3: after every successful operation applied to a state reachable
from `create_game`, the structural invariants of the record hold:
`current_players == players.len() == refunded.len()`, no duplicate players,
the operator is never a player, and the winner, when set, is a player. -/
theorem structural_invariants_preserved {rent : Nat} {s : EscrowState}
    (op : Op) (hr : Reachable rent s)
    (hok : (applyOp rent s op).err = none) :
    (applyOp rent s op).st.escrow.current_players
        = (applyOp rent s op).st.escrow.players.length ∧
    (applyOp rent s op).st.escrow.players.length
        = (applyOp rent s op).st.escrow.refunded.length ∧
    (applyOp rent s op).st.escrow.players.Nodup ∧
    (applyOp rent s op).st.escrow.operator
        ∉ (applyOp rent s op).st.escrow.players ∧
    ∀ w, (applyOp rent s op).st.escrow.winner = some w →
      w ∈ (applyOp rent s op).st.escrow.players := by
  have h := inv_applyOp (inv_reachable hr) hok
  exact ⟨h.count_players, h.count_refunded, h.nodup, h.operator_not_player,
         h.winner_mem⟩

/-- Witness for C3: a successful join on a fresh game preserves the
structural invariants. -/
theorem structural_invariants_preserved_witness :
    (applyOp 50 exSt0 (Op.join 1 1000 0)).err = none ∧
    ((applyOp 50 exSt0 (Op.join 1 1000 0)).st.escrow.current_players
        = (applyOp 50 exSt0 (Op.join 1 1000 0)).st.escrow.players.length ∧
      (applyOp 50 exSt0 (Op.join 1 1000 0)).st.escrow.players.length
        = (applyOp 50 exSt0 (Op.join 1 1000 0)).st.escrow.refunded.length ∧
      (applyOp 50 exSt0 (Op.join 1 1000 0)).st.escrow.players.Nodup ∧
      (applyOp 50 exSt0 (Op.join 1 1000 0)).st.escrow.operator
        ∉ (applyOp 50 exSt0 (Op.join 1 1000 0)).st.escrow.players ∧
      ∀ w, (applyOp 50 exSt0 (Op.join 1 1000 0)).st.escrow.winner = some w →
        w ∈ (applyOp 50 exSt0 (Op.join 1 1000 0)).st.escrow.players) :=
  ⟨rfl, structural_invariants_preserved (Op.join 1 1000 0)
    ⟨0, "g", 100, 2, 1, 7, 0, exSt0, [], rfl, rfl⟩ rfl⟩

/-- Claim C4: `declare_winner` can succeed at most once per record — a
success sets status Complete, every later operation leaves the record
Complete, and any later `declare_winner` fails with `GameNotActive`. -/
theorem declare_winner_at_most_once {rent : Nat} {s : EscrowState}
    {c w : Pubkey} {ph : Nat} {now : Int}
    (hok : (declare_winner rent s c w ph now).err = none)
    (ops : List Op) (c' w' : Pubkey) (ph' : Nat) (now' : Int) :
    (declare_winner rent s c w ph now).st.escrow.status = .Complete ∧
    (run rent (declare_winner rent s c w ph now).st ops).escrow.status
        = .Complete ∧
    (declare_winner rent (run rent (declare_winner rent s c w ph now).st ops)
        c' w' ph' now').err = some (.bd .GameNotActive) := by
  have hcomp : (declare_winner rent s c w ph now).st.escrow.status
      = .Complete := by
    unfold declare_winner at hok ⊢
    split_ifs at hok ⊢ <;> try simp at hok
    rfl
  have hrun := @run_complete rent _ ops hcomp
  refine ⟨hcomp, by rw [hrun]; exact hcomp, ?_⟩
  rw [hrun]
  generalize hts : (declare_winner rent s c w ph now).st = t at hcomp ⊢
  unfold declare_winner
  rw [if_pos (by simp [hcomp])]

/-- Witness for C4 on a concrete active game: a successful declaration and
the guaranteed failure of a repeat attempt. -/
theorem declare_winner_at_most_once_witness :
    (declare_winner 50 exStActive 0 1 5 100).err = none ∧
    (declare_winner 50 exStActive 0 1 5 100).st.escrow.status
        = .Complete ∧
    (run 50 (declare_winner 50 exStActive 0 1 5 100).st []).escrow.status
        = .Complete ∧
    (declare_winner 50
        (run 50 (declare_winner 50 exStActive 0 1 5 100).st []) 0 2 9
        200).err = some (.bd .GameNotActive) :=
  ⟨by decide,
   (declare_winner_at_most_once (by decide) [] 0 2 9 200).1,
   (declare_winner_at_most_once (by decide) [] 0 2 9 200).2.1,
   (declare_winner_at_most_once (by decide) [] 0 2 9 200).2.2⟩

theorem refundedFlag_true_elim {s : EscrowState} {p : Pubkey}
    (h : refundedFlag s p = true) :
    ∃ i, s.escrow.players.findIdx? (fun q => q = p) = some i ∧
      s.escrow.refunded.getD i false = true := by
  unfold refundedFlag at h
  rcases hidx : s.escrow.players.findIdx? (fun q => q = p) with _ | i
  · rw [hidx] at h
    simp at h
  · rw [hidx] at h
    simp at h
    refine ⟨i, rfl, ?_⟩
    rw [List.getD_eq_getElem?_getD]
    exact h

theorem getD_true_lt_length {l : List Bool} {i : Nat}
    (h : l.getD i false = true) : i < l.length := by
  by_contra hge
  push_neg at hge
  rw [List.getD_eq_default l false hge] at h
  simp at h

theorem applyOp_cancelled_err {rent : Nat} {s : EscrowState} (op : Op)
    (h : s.escrow.status = .Cancelled) (hnr : ∀ q, op ≠ .claimRefund q) :
    (applyOp rent s op).err ≠ none := by
  cases op with
  | join p lam now =>
      simp only [applyOp]
      unfold join_game
      rw [if_pos (by simp [h])]
      simp
  | start c now =>
      simp only [applyOp]
      unfold start_game
      rw [if_pos (by simp [h])]
      simp
  | declareWinner c w ph now =>
      simp only [applyOp]
      unfold declare_winner
      rw [if_pos (by simp [h])]
      simp
  | cancel c now =>
      simp only [applyOp]
      unfold cancel_game
      by_cases hc : c = s.escrow.operator
      · rw [if_neg (by simpa using hc), if_neg (by rw [h]; simp)]
        simp
      · rw [if_pos (by simpa using hc)]
        simp
  | claimRefund p => exact absurd rfl (hnr p)
  | halt c =>
      simp only [applyOp]
      unfold emergency_halt
      rw [if_pos (by simp [h])]
      simp
  | resume c =>
      simp only [applyOp]
      unfold resume_game
      rw [if_pos (by simp [h])]
      simp

theorem cancelled_flag_persists (rent : Nat) {s : EscrowState} {p : Pubkey}
    (h1 : s.escrow.status = .Cancelled) (hf : refundedFlag s p = true)
    (op : Op) :
    (step rent s op).escrow.status = .Cancelled ∧
    refundedFlag (step rent s op) p = true := by
  by_cases hq : ∃ q, op = .claimRefund q
  swap
  · push_neg at hq
    rw [step_of_err (applyOp_cancelled_err op h1 hq)]
    exact ⟨h1, hf⟩
  obtain ⟨q, rfl⟩ := hq
  rcases hidx : s.escrow.players.findIdx? (fun r => r = q) with _ | j
  · rw [step_of_err (by
      simp only [applyOp]
      rw [claim_refund_no_player h1 hidx]
      simp)]
    exact ⟨h1, hf⟩
  rcases hflagq : s.escrow.refunded.getD j false with _ | _
  swap
  · rw [step_of_err (by
      simp only [applyOp]
      rw [claim_refund_already h1 hidx hflagq]
      simp)]
    exact ⟨h1, hf⟩
  have hstep : step rent s (Op.claimRefund q) =
      ⟨{ s.escrow with refunded := s.escrow.refunded.set j true },
        s.lamports - s.escrow.buy_in⟩ := by
    rw [step_of_ok (by
      simp only [applyOp]
      rw [claim_refund_success h1 hidx hflagq])]
    simp only [applyOp]
    rw [claim_refund_success h1 hidx hflagq]
  rw [hstep]
  refine ⟨h1, ?_⟩
  obtain ⟨i, hidxp, hgd⟩ := refundedFlag_true_elim hf
  have hilt : i < s.escrow.refunded.length := getD_true_lt_length hgd
  unfold refundedFlag
  simp only
  rw [hidxp]
  simp only
  have hilt' : i < (s.escrow.refunded.set j true).length := by
    rw [List.length_set]
    exact hilt
  rw [List.getD_eq_getElem _ false hilt', List.getElem_set]
  by_cases hij : j = i
  · simp [hij]
  · rw [if_neg hij]
    rw [List.getD_eq_getElem _ false hilt] at hgd
    exact hgd

theorem cancelled_flag_persists_run (rent : Nat) {s : EscrowState}
    {p : Pubkey} (h1 : s.escrow.status = .Cancelled)
    (hf : refundedFlag s p = true) (ops : List Op) :
    (run rent s ops).escrow.status = .Cancelled ∧
    refundedFlag (run rent s ops) p = true := by
  induction ops generalizing s with
  | nil => exact ⟨h1, hf⟩
  | cons op ops ih =>
      have hd := cancelled_flag_persists rent h1 hf op
      have h2 : run rent s (op :: ops) = run rent (step rent s op) ops := rfl
      rw [h2]
      exact ih hd.1 hd.2

/-- Claim C5: for every participant of a Cancelled game, the first
successful `claim_refund` transfers exactly `buy_in` and records the
refund, and every subsequent `claim_refund` by the same participant fails
with `AlreadyRefunded` and transfers nothing. -/
theorem refund_paid_exactly_once {rent : Nat} {s : EscrowState} {p : Pubkey}
    (hr : Reachable rent s) (hok : (claim_refund s p).err = none)
    (ops : List Op) :
    (claim_refund s p).credited = s.escrow.buy_in ∧
    refundedFlag (claim_refund s p).st p = true ∧
    (claim_refund (run rent (claim_refund s p).st ops) p).err
        = some (.bd .AlreadyRefunded) ∧
    (claim_refund (run rent (claim_refund s p).st ops) p).credited = 0 := by
  by_cases h1 : s.escrow.status = .Cancelled
  swap
  · rw [claim_refund_not_cancelled h1] at hok
    simp at hok
  rcases hidx : s.escrow.players.findIdx? (fun q => q = p) with _ | i
  · rw [claim_refund_no_player h1 hidx] at hok
    simp at hok
  rcases hflag : s.escrow.refunded.getD i false with _ | _
  swap
  · rw [claim_refund_already h1 hidx hflag] at hok
    simp at hok
  have hinv := inv_reachable hr
  have hb := List.findIdx?_eq_some_iff_findIdx_eq.mp hidx
  have hilt : i < s.escrow.refunded.length := by
    have := hinv.count_refunded
    omega
  rw [claim_refund_success h1 hidx hflag]
  have hfl : refundedFlag
      (⟨{ s.escrow with refunded := s.escrow.refunded.set i true },
        s.lamports - s.escrow.buy_in⟩ : EscrowState) p = true := by
    unfold refundedFlag
    simp only
    rw [hidx]
    have hilt' : i < (s.escrow.refunded.set i true).length := by
      rw [List.length_set]
      exact hilt
    change (s.escrow.refunded.set i true).getD i false = true
    rw [List.getD_eq_getElem _ false hilt', List.getElem_set]
    simp
  have h1' : (⟨{ s.escrow with refunded := s.escrow.refunded.set i true },
      s.lamports - s.escrow.buy_in⟩ : EscrowState).escrow.status
        = .Cancelled := h1
  have hpers := cancelled_flag_persists_run rent h1' hfl ops
  obtain ⟨i', hidx', hgd'⟩ := refundedFlag_true_elim hpers.2
  have heq := claim_refund_already hpers.1 hidx' hgd'
  refine ⟨rfl, hfl, ?_, ?_⟩ <;> rw [heq]

/-- Witness for C5 on a concrete cancelled game with one participant. -/
theorem refund_paid_exactly_once_witness :
    (claim_refund exStCancelled 1).err = none ∧
    ((claim_refund exStCancelled 1).credited = exStCancelled.escrow.buy_in ∧
      refundedFlag (claim_refund exStCancelled 1).st 1 = true ∧
      (claim_refund (run 50 (claim_refund exStCancelled 1).st []) 1).err
          = some (.bd .AlreadyRefunded) ∧
      (claim_refund (run 50 (claim_refund exStCancelled 1).st []) 1).credited
          = 0) :=
  ⟨by decide,
   refund_paid_exactly_once
     ⟨0, "g", 100, 2, 1, 7, 0, exSt0, [.join 1 1000 0, .cancel 0 5], rfl,
      rfl⟩ (by decide) []⟩

/-- Counterexample to C6 as stated: a reachable Filled record past its fill
deadline rejects a join with `GameNotOpen`, not `DeadlinePassed`, so the
claim fails for non-Open record states. -/
theorem deadline_gating_counterexample :
    Reachable 50 exStFilled ∧
    exStFilled.escrow.fill_deadline ≤ 5000 ∧
    (join_game exStFilled 3 1000 5000).err = some (.bd .GameNotOpen) ∧
    (join_game exStFilled 3 1000 5000).err ≠ some (.bd .DeadlinePassed) :=
  ⟨⟨0, "g", 100, 2, 1, 7, 0, exSt0, [.join 1 1000 0, .join 2 1000 0], rfl,
    rfl⟩, by decide, by decide, by decide⟩

/-- Claim C6 (amended): `join_game` invoked with clock ≥ `fill_deadline`
never succeeds; in every reachable state with status Open — where remaining
capacity is guaranteed — the failure is precisely `DeadlinePassed`. -/
theorem deadline_gating_amended {rent : Nat} {s : EscrowState} {p : Pubkey}
    {lam : Nat} {now : Int} (hr : Reachable rent s)
    (hd : s.escrow.fill_deadline ≤ now) :
    (join_game s p lam now).err ≠ none ∧
    (s.escrow.status = .Open →
      (join_game s p lam now).err = some (.bd .DeadlinePassed)) := by
  constructor
  · intro hok
    unfold join_game at hok
    split_ifs at hok with h1 h2 h3 h4 h5 h6 <;> try simp at hok
    push_neg at h3
    omega
  · intro hopen
    have hcap := (inv_reachable hr).open_capacity hopen
    unfold join_game
    rw [if_neg (by simp [hopen]), if_neg (by simpa using not_not_intro hcap),
        if_pos (by omega)]

/-- Witness for the amended C6 on a fresh game past its deadline. -/
theorem deadline_gating_amended_witness :
    exSt0.escrow.fill_deadline ≤ 4000 ∧
    (join_game exSt0 1 1000 4000).err ≠ none ∧
    (exSt0.escrow.status = .Open →
      (join_game exSt0 1 1000 4000).err = some (.bd .DeadlinePassed)) :=
  ⟨by decide,
   (deadline_gating_amended ⟨0, "g", 100, 2, 1, 7, 0, exSt0, [], rfl, rfl⟩
     (by decide)).1,
   (deadline_gating_amended ⟨0, "g", 100, 2, 1, 7, 0, exSt0, [], rfl, rfl⟩
     (by decide)).2⟩

/-- Claim C7: `cancel_game` succeeds exactly when the caller is the
operator and the status is Open or Paused, or Filled with the deadline
passed; a success only sets status Cancelled and moves no funds; otherwise
it fails with `UnauthorizedOperator` or `CannotCancel` and leaves the
record unchanged. -/
theorem cancel_game_characterization (s : EscrowState) (c : Pubkey)
    (now : Int) :
    ((cancel_game s c now).err = none ↔
      (c = s.escrow.operator ∧
        (s.escrow.status = .Open ∨ s.escrow.status = .Paused ∨
          (s.escrow.status = .Filled ∧ now > s.escrow.fill_deadline)))) ∧
    ((cancel_game s c now).err = none →
      (cancel_game s c now).st =
        ⟨{ s.escrow with status := .Cancelled }, s.lamports⟩ ∧
      (cancel_game s c now).credited = 0) ∧
    ((cancel_game s c now).err = none ∨
      (cancel_game s c now).err = some (.bd .UnauthorizedOperator) ∨
      (cancel_game s c now).err = some (.bd .CannotCancel)) ∧
    ((cancel_game s c now).err ≠ none → (cancel_game s c now).st = s ∧
      (cancel_game s c now).credited = 0) := by
  unfold cancel_game
  by_cases hc : c = s.escrow.operator
  swap
  · rw [if_pos (by simpa using hc)]
    simp [hc]
  rw [if_neg (by simpa using not_not_intro hc)]
  rcases hst : s.escrow.status with _ | _ | _ | _ | _ | _
  · simp [hc, hst]
  · by_cases hdl : now > s.escrow.fill_deadline <;> simp [hc, hst, hdl]
  · simp [hc, hst]
  · simp [hc, hst]
  · simp [hc, hst]
  · simp [hc, hst]

/-- Witness for C7: an Open game cancels cleanly; a Filled game before the
deadline cannot be cancelled. -/
theorem cancel_game_characterization_witness :
    (cancel_game exSt0 0 5).err = none ∧
    (cancel_game exSt0 0 5).st.escrow.status = .Cancelled ∧
    (cancel_game exStFilled 0 10).err = some (.bd .CannotCancel) :=
  ⟨(cancel_game_characterization exSt0 0 5).1.mpr ⟨rfl, Or.inl rfl⟩,
   by decide, by decide⟩

/-- Claim C8: with status Active, the operator calling and the winner a
player, `declare_winner` fails with `TooEarlyForWinner` and leaves the
record unchanged when `started_at` is set and fewer than
`MINIMUM_GAME_TIME` seconds have passed; once the minimum has passed, or
when `started_at` is unset, the time gate passes and the call succeeds. -/
theorem declare_winner_time_gate {rent : Nat} {s : EscrowState}
    {c w : Pubkey} {ph : Nat} {now : Int}
    (hst : s.escrow.status = .Active) (hc : c = s.escrow.operator)
    (hw : w ∈ s.escrow.players) :
    (∀ t, s.escrow.started_at = some t → now < t + MINIMUM_GAME_TIME →
      (declare_winner rent s c w ph now).err
          = some (.bd .TooEarlyForWinner) ∧
      (declare_winner rent s c w ph now).st = s ∧
      (declare_winner rent s c w ph now).credited = 0) ∧
    (∀ t, s.escrow.started_at = some t → t + MINIMUM_GAME_TIME ≤ now →
      (declare_winner rent s c w ph now).err = none) ∧
    (s.escrow.started_at = none →
      (declare_winner rent s c w ph now).err = none) := by
  unfold declare_winner
  rw [if_neg (by simp [hst]), if_neg (by simpa using not_not_intro hc),
      if_neg (by simp [List.contains, List.elem_iff, hw])]
  refine ⟨?_, ?_, ?_⟩
  · intro t ht hlt
    rw [ht, if_pos (by simp; omega)]
    exact ⟨rfl, rfl, rfl⟩
  · intro t ht hge
    rw [ht, if_neg (by simp; omega)]
  · intro ht
    rw [ht, if_neg (by simp)]

/-- Witness for C8: declaring at 5 seconds into a game started at 10 fails
too-early; declaring at 100 seconds succeeds. -/
theorem declare_winner_time_gate_witness :
    exStActive.escrow.status = .Active ∧
    (1 : Pubkey) ∈ exStActive.escrow.players ∧
    (declare_winner 50 exStActive 0 1 5 15).err
        = some (.bd .TooEarlyForWinner) ∧
    (declare_winner 50 exStActive 0 1 5 100).err = none :=
  ⟨rfl, by decide,
   ((@declare_winner_time_gate 50 exStActive 0 1 5 15 rfl rfl
      (by decide)).1 10 rfl (by decide)).1,
   (@declare_winner_time_gate 50 exStActive 0 1 5 100 rfl rfl
      (by decide)).2.1 10 rfl (by decide)⟩

/-- Claim C9: in every reachable state, status Active implies `started_at`
is set, so the conditional minimum-game-time check in `declare_winner` can
never be bypassed by an Active game without a start time. -/
theorem active_implies_started {rent : Nat} {s : EscrowState}
    (hr : Reachable rent s) (hst : s.escrow.status = .Active) :
    s.escrow.started_at ≠ none :=
  (inv_reachable hr).active_started hst

/-- Witness for C9 on a concrete started game. -/
theorem active_implies_started_witness :
    exStActive.escrow.status = .Active ∧
    exStActive.escrow.started_at ≠ none :=
  ⟨rfl, active_implies_started
    ⟨0, "g", 100, 2, 1, 7, 0, exSt0,
     [.join 1 1000 0, .join 2 1000 0, .start 0 10], rfl, rfl⟩ rfl⟩

/-- Claim C10: in every reachable state the player index found by
`claim_refund` is a valid index into `refunded`, so the source's direct
accesses `escrow.refunded[player_index]` can never go out of bounds. -/
theorem refund_index_in_bounds {rent : Nat} {s : EscrowState} {p : Pubkey}
    {i : Nat} (hr : Reachable rent s)
    (hidx : s.escrow.players.findIdx? (fun q => q = p) = some i) :
    i < s.escrow.refunded.length := by
  have hb := List.findIdx?_eq_some_iff_findIdx_eq.mp hidx
  have hc := (inv_reachable hr).count_refunded
  omega

/-- Witness for C10 on a concrete cancelled game. -/
theorem refund_index_in_bounds_witness :
    exStCancelled.escrow.players.findIdx? (fun q => q = (1 : Pubkey))
        = some 0 ∧
    0 < exStCancelled.escrow.refunded.length :=
  ⟨by decide, @refund_index_in_bounds 50 exStCancelled 1 0
    ⟨0, "g", 100, 2, 1, 7, 0, exSt0, [.join 1 1000 0, .cancel 0 5], rfl,
     rfl⟩ (by decide)⟩
